import Mathlib

set_option maxRecDepth 10000

/-!
Shallow embedding of the core of the `deep110/rust-3d-renderer` repository:
the wavefront mesh parser (`src/mesh/wavefront.rs`), the vertex normalizer
(`src/mesh/mod.rs`), the depth-buffered triangle rasterizer
(`src/rasterizer.rs`), the Bresenham line drawing (`src/wireframe.rs`), the
frame-buffer utilities (`src/utils.rs`), the per-frame render loop
(`src/lib.rs`), and the material-library resolution (`src/wavefront.rs`).

Modelling conventions:
* Rust `f32` values are modelled as rationals.  In the rasterizer, the
  line drawer and the render loop the arithmetic of the source is
  mirrored term by term over exact rationals (the claims settled there
  rest on comparisons whose outcome is rounding-independent, and every
  concrete instance uses exactly representable values); the `f32::MIN`
  and `f32::MAX` constants are the exact rationals those floats denote.
  The vertex normalizer, whose claim is rounding-sensitive, is instead
  modelled with genuine binary32 round-to-nearest-even arithmetic
  (`roundF32` below).
* `usize`, `isize` and `i32` casts are modelled with explicit wrap-around
  modulo 2 ^ 64 or truncation plus saturation, matching release-mode Rust.
* The frame buffer and the depth buffer are modelled as total functions
  from flat indices to values.  The frame buffer is modelled at 4-byte
  pixel granularity, since every write of the source is a 4-aligned
  4-byte `copy_from_slice`.
* The source reads lines from a `BufRead`; inputs are modelled as the
  list of lines of the stream.
-/

/-! ### Machine-integer casts -/

/-- Rust `as usize` on a signed value, release-mode semantics:
wrap-around modulo 2 ^ 64. -/
def usizeOf (i : ℤ) : ℕ := (i % (2 ^ 64 : ℤ)).toNat

/-- Rust `x - 1` on a `usize`, release-mode semantics: wrapping
subtraction modulo 2 ^ 64. -/
def usizeSub1 (n : ℕ) : ℕ := (n + (2 ^ 64 - 1)) % 2 ^ 64

/-- Truncation toward zero, the rounding used by Rust float-to-int casts. -/
def ratTrunc (x : ℚ) : ℤ := if 0 ≤ x then ⌊x⌋ else ⌈x⌉

/-- Saturation to the `i32` range, as performed by Rust float-to-int casts. -/
def i32Sat (i : ℤ) : ℤ := max (-(2 ^ 31)) (min (2 ^ 31 - 1) i)

/-- Rust `f as i32` on an `f32` value: truncate toward zero, saturate. -/
def ratToI32 (x : ℚ) : ℤ := i32Sat (ratTrunc x)

/-- Rust `f as u8` on an `f32` value: truncate toward zero, saturate
to `[0, 255]`. -/
def castU8 (x : ℚ) : ℕ := (max 0 (min 255 (ratTrunc x))).toNat

/-- The list of integers of the half-open interval `[lo, hi)`, in order;
models a Rust `lo..hi` loop over signed integers. -/
def intRange (lo hi : ℤ) : List ℤ :=
  (List.range (hi - lo).toNat).map (fun k : ℕ => lo + (k : ℤ))

/-! ### String utilities

The source uses `str::split_whitespace`, `str::split('/')`, `str::trim`,
byte-slicing and `len` on lines.  They are modelled here by structurally
recursive functions over the character list of a `String`, so that every
concrete parse reduces inside the kernel.  Tokens of the claims only use
the space character, which these functions treat exactly as the source
does. -/

/-- Split a character list at every occurrence of `c` (occurrences are
dropped; empty pieces are kept, as Rust `split` does). -/
def splitOnChar (c : Char) : List Char → List (List Char)
  | [] => [[]]
  | a :: rest =>
      let r := splitOnChar c rest
      if a = c then [] :: r
      else
        match r with
        | h :: t => (a :: h) :: t
        | [] => [[a]]

/-- Split a string at every occurrence of the character `c`. -/
def strSplitOn (c : Char) (s : String) : List String :=
  (splitOnChar c s.data).map (fun l => (⟨l⟩ : String))

/-- Whitespace test used by `trim` and `split_whitespace`. -/
def isWs (c : Char) : Bool := c = ' ' ∨ c = '\t' ∨ c = '\n' ∨ c = '\r'

/-- Rust `str::trim`: strip leading and trailing whitespace. -/
def strTrim (s : String) : String :=
  ⟨((s.data.dropWhile isWs).reverse.dropWhile isWs).reverse⟩

/-- Rust `str::len` (inputs of the claims are ASCII, so character count
agrees with byte count). -/
def strLen (s : String) : ℕ := s.data.length

/-- Rust byte-slicing `line[n..]` (ASCII inputs). -/
def strDrop (s : String) (n : ℕ) : String := ⟨s.data.drop n⟩

/-- The source tokenizes each line with
`line.split_whitespace().filter(|s| !s.is_empty())`.  Modelled for
space-separated tokens, which is what every claim input uses. -/
def splitWs (s : String) : List String :=
  ((splitOnChar ' ' s.data).map (fun l => (⟨l⟩ : String))).filter (fun t => t ≠ "")

/-! ### Numeric token parsing

Rust parses face indices with `isize::from_str` and vertex fields with
`f32::from_str`.  The fragments modelled here are the signed-decimal-digit
grammar for integers (with the `isize` range check) and the
sign/digits/point/digits grammar for floats; every numeric token appearing
in the claims is inside these fragments. -/

/-- Value of a decimal digit character. -/
def digitVal (c : Char) : Option ℕ :=
  if c.isDigit then some (c.toNat - 48) else none

/-- Parse a nonempty string of decimal digits. -/
def parseNatTok (cs : List Char) : Option ℕ :=
  if cs.isEmpty then none
  else
    cs.foldl
      (fun acc c =>
        match acc, digitVal c with
        | some a, some d => some (a * 10 + d)
        | _, _ => none)
      (some 0)

/-- Rust `isize::from_str`: optional sign, digits, range check. -/
def parseIntTok (s : String) : Option ℤ :=
  let v : Option ℤ :=
    match s.data with
    | '-' :: rest => (parseNatTok rest).map (fun n => -(n : ℤ))
    | '+' :: rest => (parseNatTok rest).map (fun n => (n : ℤ))
    | cs => (parseNatTok cs).map (fun n => (n : ℤ))
  v.bind (fun i => if -(2 ^ 63) ≤ i ∧ i ≤ 2 ^ 63 - 1 then some i else none)

/-- Fragment of Rust `f32::from_str`: optional sign, integer part,
optional fractional part.  The numeric value is kept exact. -/
def parseFloatTok (s : String) : Option ℚ :=
  let unsignedPart : List Char → Option ℚ := fun cs =>
    match splitOnChar '.' cs with
    | [a] => (parseNatTok a).map (fun n => (n : ℚ))
    | [a, b] =>
        if a.isEmpty ∧ b.isEmpty then none
        else
          let ip : Option ℕ := if a.isEmpty then some 0 else parseNatTok a
          let fp : Option ℚ :=
            if b.isEmpty then some 0
            else (parseNatTok b).map (fun n => (n : ℚ) / (10 : ℚ) ^ b.length)
          match ip, fp with
          | some i, some f => some ((i : ℚ) + f)
          | _, _ => none
    | _ => none
  match s.data with
  | '-' :: rest => (unsignedPart rest).map (fun q => -q)
  | '+' :: rest => unsignedPart rest
  | cs => unsignedPart cs

/-! ### Data model (`src/mesh/mod.rs`, `src/mesh/wavefront.rs`) -/

/-- A 3-component `f32` vector (`cgmath::Vector3<f32>`), modelled over ℚ. -/
structure Vec3 where
  x : ℚ
  y : ℚ
  z : ℚ
deriving DecidableEq

/-- Zero vector, used as the default for out-of-range list reads that
would panic in the source (no claim instance reaches such a read except
where explicitly discussed). -/
def vec3Zero : Vec3 := ⟨0, 0, 0⟩

/-- `IndexTuple(pub usize, Option<usize>, Option<usize>)`: resolved
position / texture / normal indices of one face-group. -/
structure IndexTuple where
  pos : ℕ
  tex : Option ℕ
  norm : Option ℕ
deriving DecidableEq

/-- `SimplePolygon`: the list of index tuples of one `f` directive. -/
abbrev SimplePolygon := List IndexTuple

/-- The `Material` record of the `.mtl` model (all attribute fields are
optional, as in the source). -/
structure Material where
  name : String
  ka : Option (ℚ × ℚ × ℚ) := none
  kd : Option (ℚ × ℚ × ℚ) := none
  ks : Option (ℚ × ℚ × ℚ) := none
  ke : Option (ℚ × ℚ × ℚ) := none
  km : Option ℚ := none
  tf : Option (ℚ × ℚ × ℚ) := none
  ns : Option ℚ := none
  ni : Option ℚ := none
  tr : Option ℚ := none
  d : Option ℚ := none
  illum : Option ℤ := none
  map_ka : Option String := none
  map_kd : Option String := none
  map_ks : Option String := none
  map_ke : Option String := none
  map_ns : Option String := none
  map_d : Option String := none
  map_bump : Option String := none
  map_refl : Option String := none
deriving DecidableEq

/-- `Material::new`: a material with only its name set. -/
def Material.new (name : String) : Material := { name := name }

/-- The `Mtl` record produced by a `mtllib` directive: the library file
name plus its loaded materials (empty until the library is loaded). -/
structure Mtl where
  filename : String
  materials : List Material
deriving DecidableEq

/-- `Mtl::new`: an empty library record for the given file name. -/
def Mtl.new (filename : String) : Mtl := ⟨filename, []⟩

/-- `ObjMaterial`: a group's material reference, by name before library
resolution, or the resolved material afterwards. -/
inductive ObjMaterial where
  | Ref (name : String)
  | Mtl (m : Material)
deriving DecidableEq

/-- `ObjMaterial::name`. -/
def ObjMaterial.name : ObjMaterial → String
  | .Ref n => n
  | .Mtl m => m.name

/-- A `g`/`usemtl` group: name, disambiguation index, optional material,
polygons. -/
structure ObjGroup where
  name : String
  index : ℕ
  material : Option ObjMaterial
  polys : List SimplePolygon
deriving DecidableEq

/-- `Group::new`. -/
def ObjGroup.new (name : String) : ObjGroup := ⟨name, 0, none, []⟩

/-- An `o` object: name and groups. -/
structure Object where
  name : String
  groups : List ObjGroup
deriving DecidableEq

/-- `Object::new`. -/
def Object.new (name : String) : Object := ⟨name, []⟩

/-- `MeshData`: everything parsed from one `.obj` stream. -/
structure MeshData where
  position : List Vec3
  texture : List (ℚ × ℚ)
  normal : List Vec3
  objects : List Object
  material_libs : List Mtl
deriving DecidableEq

/-- `MeshData::default()`. -/
def emptyMeshData : MeshData := ⟨[], [], [], [], []⟩

/-- The `ObjError` taxonomy of the parser (`Io` carries a message; the
debug-formatted payloads of the source are carried as the raw token
text). -/
inductive ObjError where
  | Io (msg : String)
  | Unsupported
  | MalformedFaceGroup (line_number : ℕ) (group : String)
  | ArgumentListFailure (line_number : ℕ) (list : String)
  | MissingMTLName (line_number : ℕ)
deriving DecidableEq

deriving instance DecidableEq for Except

/-! ### The wavefront parser (`src/mesh/wavefront.rs`) -/

/-- `normalize(idx: isize, len: usize) -> usize` from
`src/mesh/wavefront.rs`: a negative source index is offset by the current
array length, otherwise one is subtracted.  Both arms are plain machine
arithmetic with no bounds check; the casts wrap exactly as the release
build does. -/
def normalizeIndex (idx : ℤ) (len : ℕ) : ℕ :=
  if idx < 0 then usizeOf ((len : ℤ) + idx) else usizeSub1 (usizeOf idx)

/-- `ObjData::parse_two`: two whitespace tokens parsed as `f32`. -/
def parse_two (ln : ℕ) (n0 n1 : Option String) : Except ObjError (ℚ × ℚ) :=
  match n0, n1 with
  | some a, some b =>
      match parseFloatTok a, parseFloatTok b with
      | some x, some y => .ok (x, y)
      | _, _ => .error (.ArgumentListFailure ln (a ++ " " ++ b))
  | _, _ => .error (.ArgumentListFailure ln "missing argument")

/-- `ObjData::parse_three`: three whitespace tokens parsed as `f32`. -/
def parse_three (ln : ℕ) (n0 n1 n2 : Option String) : Except ObjError Vec3 :=
  match n0, n1, n2 with
  | some a, some b, some c =>
      match parseFloatTok a, parseFloatTok b, parseFloatTok c with
      | some x, some y, some z => .ok ⟨x, y, z⟩
      | _, _, _ => .error (.ArgumentListFailure ln (a ++ " " ++ b ++ " " ++ c))
  | _, _, _ => .error (.ArgumentListFailure ln "missing argument")

/-- `ObjData::parse_group`: split one face token on `/`; the position
index must parse as an `isize` (otherwise `MalformedFaceGroup`); the
optional texture index is ignored when the middle field is empty; each
present index is resolved with `normalize` against the current array
lengths.  As in the source, no bounds check is performed on the resolved
indices. -/
def parse_group (md : MeshData) (ln : ℕ) (group : String) : Except ObjError IndexTuple :=
  let parts := strSplitOn '/' group
  let p : Option ℤ := (parts.get? 0).bind parseIntTok
  let t : Option ℤ :=
    (parts.get? 1).bind (fun s => if s ≠ "" then parseIntTok s else none)
  let n : Option ℤ := (parts.get? 2).bind parseIntTok
  match p with
  | some p =>
      .ok ⟨normalizeIndex p md.position.length,
           t.map (fun t => normalizeIndex t md.texture.length),
           n.map (fun n => normalizeIndex n md.normal.length)⟩
  | none => .error (.MalformedFaceGroup ln group)

/-- `ObjData::parse_face`: parse every remaining token of an `f` line into
one polygon, failing on the first malformed group. -/
def parse_face (md : MeshData) (ln : ℕ) (groups : List String) :
    Except ObjError SimplePolygon :=
  groups.foldlM (fun acc g => (parse_group md ln g).map (fun t => acc ++ [t])) []

/-- The mutable state threaded through `ObjData::load_buf`: the mesh
built so far, the current object and the pending group. -/
structure LoadState where
  dat : MeshData
  object : Object
  group : Option ObjGroup
deriving DecidableEq

/-- One iteration of the `load_buf` line loop (`src/mesh/wavefront.rs`,
`ObjData::load_buf`), with the directive dispatch exactly as in the
source, including the `line[1..]`, `line[2..]` slicing of the `o` and `g`
arms and the group-flush logic of the `usemtl` arm. -/
def processLine (st : LoadState) (ln : ℕ) (line : String) : Except ObjError LoadState :=
  let words := splitWs line
  let rest := words.tail
  match words.head? with
  | some "v" =>
      (parse_three ln (rest.get? 0) (rest.get? 1) (rest.get? 2)).map (fun v =>
        { st with dat := { st.dat with position := st.dat.position ++ [v] } })
  | some "vt" =>
      (parse_two ln (rest.get? 0) (rest.get? 1)).map (fun t =>
        { st with dat := { st.dat with texture := st.dat.texture ++ [t] } })
  | some "vn" =>
      (parse_three ln (rest.get? 0) (rest.get? 1) (rest.get? 2)).map (fun v =>
        { st with dat := { st.dat with normal := st.dat.normal ++ [v] } })
  | some "f" =>
      (parse_face st.dat ln rest).map (fun poly =>
        let g :=
          match st.group with
          | none => { ObjGroup.new "default" with polys := [poly] }
          | some g => { g with polys := g.polys ++ [poly] }
        { st with group := some g })
  | some "o" =>
      let dat :=
        match st.group with
        | some val =>
            let obj := { st.object with groups := st.object.groups ++ [val] }
            { st.dat with objects := st.dat.objects ++ [obj] }
        | none => st.dat
      let newObject :=
        if strLen line > 2 then Object.new (strTrim (strDrop line 1))
        else Object.new "default"
      .ok { dat := dat, object := newObject, group := none }
  | some "g" =>
      let object :=
        match st.group with
        | some g => { st.object with groups := st.object.groups ++ [g] }
        | none => st.object
      let group :=
        if strLen line > 2 then some (ObjGroup.new (strTrim (strDrop line 2)))
        else none
      .ok { dat := st.dat, object := object, group := group }
  | some "mtllib" =>
      match rest.head? with
      | none => .error (.MissingMTLName ln)
      | some first =>
          let name := rest.tail.foldl (fun acc w => acc ++ " " ++ w) first
          .ok { st with
                dat := { st.dat with
                         material_libs := st.dat.material_libs ++ [Mtl.new name] } }
  | some "usemtl" =>
      let g := st.group.getD (ObjGroup.new "default")
      let (object, g) :=
        if g.material.isSome then
          ({ st.object with groups := st.object.groups ++ [g] },
           { g with index := g.index + 1, polys := [] })
        else (st.object, g)
      let g := { g with material := rest.head?.map ObjMaterial.Ref }
      .ok { st with object := object, group := some g }
  | some _ => .ok st
  | none => .ok st

/-- `ObjData::load_buf`: run the line loop over the input lines, then
flush the pending group and push the current object. -/
def load_buf (lines : List String) : Except ObjError MeshData := do
  let st0 : LoadState := ⟨emptyMeshData, Object.new "default", none⟩
  let st ← lines.enum.foldlM (fun st (p : ℕ × String) => processLine st p.1 p.2) st0
  let object :=
    match st.group with
    | some g => { st.object with groups := st.object.groups ++ [g] }
    | none => st.object
  return { st.dat with objects := st.dat.objects ++ [object] }

/-! ### Single-precision rounding

The vertex normalizer claim is decided by `f32` rounding, so its
embedding uses a genuine binary32 model: round to nearest, ties to
even, with gradual underflow, over rationals that are exactly the
representable values.  Magnitudes of `2 ^ 128` and above stand for the
infinities (the exact threshold at which IEEE rounding overflows), so
comparisons against finite values behave correctly; the one division
whose divisor can be zero in the source (the per-axis scale, where the
quotient is `+inf`) is guarded explicitly where it occurs. -/

/-- Binary digit count, structured on fuel so that concrete evaluations
reduce inside the kernel (the fuel bounds the digit count; every value
arising from `f32` data has far fewer than 4096 digits). -/
def natBitsAux : ℕ → ℕ → ℕ
  | 0, _ => 0
  | fuel + 1, n => if n = 0 then 0 else natBitsAux fuel (n / 2) + 1

/-- Binary digit count of a natural number. -/
def natBits (n : ℕ) : ℕ := natBitsAux 4096 n

/-- The rational `2 ^ e` for a signed exponent. -/
def pow2 (e : ℤ) : ℚ :=
  if 0 ≤ e then ((2 ^ e.toNat : ℕ) : ℚ) else (1 : ℚ) / ((2 ^ (-e).toNat : ℕ) : ℚ)

/-- `⌊log2 q⌋` for a positive rational. -/
def floorLog2 (q : ℚ) : ℤ :=
  let e0 : ℤ := (natBits q.num.toNat : ℤ) - (natBits q.den : ℤ)
  if pow2 e0 ≤ q then e0 else e0 - 1

/-- Round a positive rational to the binary32 grid: 24 significand bits
down to the subnormal unit `2 ^ -149`, nearest value, ties to even. -/
def roundF32Pos (q : ℚ) : ℚ :=
  let e := floorLog2 q
  let u : ℤ := max (e - 23) (-149)
  let scaled := q / pow2 u
  let k := ⌊scaled⌋
  let frac := scaled - (k : ℚ)
  let k2 : ℤ :=
    if frac > 1/2 then k + 1
    else if frac < 1/2 then k
    else if k % 2 = 0 then k else k + 1
  (k2 : ℚ) * pow2 u

/-- The overflow threshold of binary32: results of magnitude at least
`2 ^ 128` round to the infinities, represented by this sentinel. -/
def f32INF : ℚ := ((2 ^ 128 : ℕ) : ℚ)

/-- Round-to-nearest-even to binary32, with overflow to the infinity
sentinels.  Validated against hardware `f32` rounding. -/
def roundF32 (q : ℚ) : ℚ :=
  if q = 0 then 0
  else
    let r := if 0 < q then roundF32Pos q else -(roundF32Pos (-q))
    if f32INF ≤ r then f32INF else if r ≤ -f32INF then -f32INF else r

/-- `f32` addition. -/
def fadd (a b : ℚ) : ℚ := roundF32 (a + b)

/-- `f32` subtraction. -/
def fsub (a b : ℚ) : ℚ := roundF32 (a - b)

/-- `f32` multiplication. -/
def fmul (a b : ℚ) : ℚ := roundF32 (a * b)

/-- `f32` division (of a finite value by a nonzero finite value; the
zero-divisor case of the source is guarded at its one occurrence). -/
def fdiv (a b : ℚ) : ℚ := roundF32 (a / b)

/-! ### The vertex normalizer (`src/mesh/mod.rs`) -/

/-- The six extrema `[x_min, x_max, y_min, y_max, z_min, z_max]` computed
by `MeshData::min_max_vertices`. -/
structure MinMax where
  xmin : ℚ
  xmax : ℚ
  ymin : ℚ
  ymax : ℚ
  zmin : ℚ
  zmax : ℚ
deriving DecidableEq

/-- One axis of a `min_max_vertices` iteration, with the source's
`if new-max else if new-min` structure:
`if c > max { max = c } else if c < min { min = c }`. -/
def stepMinMax (mn mx c : ℚ) : ℚ × ℚ :=
  if c > mx then (mn, c) else if c < mn then (c, mx) else (mn, mx)

/-- One iteration of the `min_max_vertices` loop.  The source updates the
three axes in sequence, and each axis's `if`/`else if` reads and writes
only that axis's two fields, so the iteration is the independent
composition of the three per-axis updates. -/
def minMaxStep (st : MinMax) (v : Vec3) : MinMax :=
  let px := stepMinMax st.xmin st.xmax v.x
  let py := stepMinMax st.ymin st.ymax v.y
  let pz := stepMinMax st.zmin st.zmax v.z
  ⟨px.1, px.2, py.1, py.2, pz.1, pz.2⟩

/-- `MeshData::min_max_vertices`: every extremum is seeded at `0`. -/
def min_max_vertices (vs : List Vec3) : MinMax :=
  vs.foldl minMaxStep ⟨0, 0, 0, 0, 0, 0⟩

/-- The `values` array of `normalize_vertices` in source order. -/
def minMaxList (m : MinMax) : List ℚ :=
  [m.xmin, m.xmax, m.ymin, m.ymax, m.zmin, m.zmax]

/-- The already-normalized check of `normalize_vertices`: every extremum
lies within `[-1, 1]` (the source's early-exit loop computes exactly this
conjunction). -/
def isValidValues (m : MinMax) : Bool :=
  (minMaxList m).all (fun i => decide (i ≤ 1) && decide (-1 ≤ i))

/-- One per-axis scale factor `1. / ((max - min) / 2.)`, in `f32`.  When
the halved extent is zero (a flat axis, or an extent so tiny that
halving it underflows to zero) the division yields `+inf`; that value
is modelled as `none`, which the minimum treats as larger than every
finite scale, exactly as the `min_by` of the source does. -/
def scaleAxis (lo hi : ℚ) : Option ℚ :=
  let h := fdiv (fsub hi lo) 2
  if h = 0 then none else some (fdiv 1 h)

/-- Minimum of two scale factors, `none` being `+inf`. -/
def minOpt (a b : Option ℚ) : Option ℚ :=
  match a, b with
  | none, b => b
  | some x, none => some x
  | some x, some y => some (min x y)

/-- The uniform `scale_by` factor: the smallest of the three per-axis
scales.  The `getD 0` default is unreachable whenever the early-exit
check has failed, because a mesh with all three axes flat has every
extremum equal to `0` and is already valid. -/
def scaleBy (m : MinMax) : ℚ :=
  (minOpt (minOpt (scaleAxis m.xmin m.xmax) (scaleAxis m.ymin m.ymax))
      (scaleAxis m.zmin m.zmax)).getD 0

/-- `MeshData::normalize_vertices`, acting on the position array: early
exit when already normalized (a comparison-only path, exact in `f32`),
otherwise translate by the per-axis center-of-extent and scale
uniformly, every arithmetic operation rounded to binary32 as the
source's `f32` arithmetic is.  IEEE negation is exact, so the leading
minus of each translation component is not rounded. -/
def normalize_vertices (vs : List Vec3) : List Vec3 :=
  let m := min_max_vertices vs
  if isValidValues m then vs
  else
    let tx := -(fadd m.xmin (fdiv (fsub m.xmax m.xmin) 2))
    let ty := -(fadd m.ymin (fdiv (fsub m.ymax m.ymin) 2))
    let tz := -(fadd m.zmin (fdiv (fsub m.zmax m.zmin) 2))
    let s := scaleBy m
    vs.map (fun v => ⟨fmul (fadd v.x tx) s, fmul (fadd v.y ty) s, fmul (fadd v.z tz) s⟩)

/-! ### Frame-buffer utilities (`src/utils.rs`)

The source addresses the frame buffer through compile-time `WIDTH` and
`HEIGHT` constants (512 in `src/main.rs`); the embedding takes them as
the parameters `W` and `H`.  A pixel write covers bytes
`4*(x + W*((H-1) - y))` to `+4`; since every write is 4-aligned and
4-wide, the buffer is modelled at pixel-slot granularity. -/

/-- A 4-byte RGBA color. -/
abbrev Color := ℕ × ℕ × ℕ × ℕ

/-- The frame buffer, one color per 4-byte slot. -/
abbrev Frame := ℕ → Color

/-- The depth buffer, one `f32` per pixel. -/
abbrev ZBuf := ℕ → ℚ

/-- The `BLACK` clear color of `src/lib.rs`. -/
def BLACK : Color := (0, 0, 0, 255)

/-- `utils::set_pixel`: write a color at `(x, y)`, inverting the y
coordinate to put the origin at the bottom-left corner.  The source's
`_HEIGHT_C - y` is a `usize` subtraction; all uses below stay in range. -/
def set_pixel (W H : ℕ) (x y : ℕ) (frame : Frame) (color : Color) : Frame :=
  fun n => if n = x + W * (H - 1 - y) then color else frame n

/-- `utils::clear`: fill every pixel slot with the color. -/
def clearFrame (_frame : Frame) (color : Color) : Frame := fun _ => color

/-- The exact rational value of `f32::MAX`. -/
def f32MAX : ℚ := (2 ^ 24 - 1) * 2 ^ 104

/-- The exact rational value of `f32::MIN`. -/
def f32MIN : ℚ := -f32MAX

/-! ### The triangle rasterizer (`src/rasterizer.rs`) -/

/-- `cgmath::Vector3::cross`. -/
def cross3 (a b : Vec3) : Vec3 :=
  ⟨a.y * b.z - a.z * b.y, a.z * b.x - a.x * b.z, a.x * b.y - a.y * b.x⟩

/-- `barycentric_coordinates` from `src/rasterizer.rs`: cross the two
edge-and-point difference vectors; when `|u.z| < 1` the triangle is
degenerate at this scale and a negative coordinate is returned so the
pixel is rejected. -/
def barycentric_coordinates (vertices : List Vec3) (point : Vec3) : Vec3 :=
  let v0 := vertices.getD 0 vec3Zero
  let v1 := vertices.getD 1 vec3Zero
  let v2 := vertices.getD 2 vec3Zero
  let u := cross3 ⟨v1.x - v0.x, v2.x - v0.x, v0.x - point.x⟩
                  ⟨v1.y - v0.y, v2.y - v0.y, v0.y - point.y⟩
  if |u.z| < 1 then ⟨-1, 1, 1⟩
  else ⟨1 - (u.x + u.y) / u.z, u.y / u.z, u.x / u.z⟩

/-- The depth-buffer index of `render_triangle`:
`let q = i as usize + (j * _WIDTH_F as i32) as usize;` where `_WIDTH_F`
is `(WIDTH - 1) as f32`, so the row stride is `W - 1`. -/
def zSlot (W : ℕ) (i j : ℤ) : ℕ := usizeOf i + usizeOf (j * ((W : ℤ) - 1))

/-- One step of the bounding-box minimum:
`bboxmin[j] = f32::max(0., f32::min(bboxmin[j], vertices[i][j]))`. -/
def bbMinStep (a c : ℚ) : ℚ := max 0 (min a c)

/-- One step of the bounding-box maximum:
`bboxmax[j] = f32::min(clamp[j], f32::max(bboxmax[j], vertices[i][j]))`. -/
def bbMaxStep (clampv a c : ℚ) : ℚ := min clampv (max a c)

/-- The body of the per-pixel loop of `render_triangle`: reject the pixel
when a barycentric coordinate is negative, interpolate the depth from the
first two vertices, and write the pixel and the depth buffer only when
the new depth is strictly greater than the stored one. -/
def pixelStep (W H : ℕ) (vertices : List Vec3) (color : Color)
    (st : Frame × ZBuf) (i j : ℤ) : Frame × ZBuf :=
  let v0 := vertices.getD 0 vec3Zero
  let v1 := vertices.getD 1 vec3Zero
  let point : Vec3 := ⟨(i : ℚ), (j : ℚ), 0⟩
  let bc := barycentric_coordinates vertices point
  if bc.x < 0 ∨ bc.y < 0 ∨ bc.z < 0 then st
  else
    let z := v0.z * bc.x + v1.z * bc.y
    let q := zSlot W i j
    if st.2 q < z then
      (set_pixel W H (usizeOf i) (usizeOf j) st.1 color,
       fun n => if n = q then z else st.2 n)
    else st

/-- `render_triangle` from `src/rasterizer.rs`: clamp the screen-space
bounding box of the three vertices to `[0, W-1] × [0, H-1]`, then run the
depth-tested pixel loop over `bboxmin as i32 ..= bboxmax as i32`. -/
def render_triangle (W H : ℕ) (vertices : List Vec3) (frame : Frame)
    (zbuffer : ZBuf) (color : Color) : Frame × ZBuf :=
  let v0 := vertices.getD 0 vec3Zero
  let v1 := vertices.getD 1 vec3Zero
  let v2 := vertices.getD 2 vec3Zero
  let cw : ℚ := (W : ℚ) - 1
  let ch : ℚ := (H : ℚ) - 1
  let bminx := bbMinStep (bbMinStep (bbMinStep f32MAX v0.x) v1.x) v2.x
  let bminy := bbMinStep (bbMinStep (bbMinStep f32MAX v0.y) v1.y) v2.y
  let bmaxx := bbMaxStep cw (bbMaxStep cw (bbMaxStep cw f32MIN v0.x) v1.x) v2.x
  let bmaxy := bbMaxStep ch (bbMaxStep ch (bbMaxStep ch f32MIN v0.y) v1.y) v2.y
  (intRange (ratToI32 bminx) (ratToI32 bmaxx + 1)).foldl
    (fun st i =>
      (intRange (ratToI32 bminy) (ratToI32 bmaxy + 1)).foldl
        (fun st j => pixelStep W H vertices color st i j) st)
    (frame, zbuffer)

/-- `world_to_screen` from `src/rasterizer.rs`. -/
def world_to_screen (W H : ℕ) (v : Vec3) : Vec3 :=
  ⟨(v.x + 1) * ((W : ℚ) - 1) / 2, (v.y + 1) * ((H : ℚ) - 1) / 2, v.z⟩

/-- The world coordinates of the first three vertices of a face, as read
by the `for i in 0..3` loop of `rasterize_mesh`.  The source's direct
indexing panics out of range; the embedding reads a default there (the
absence of a bounds check is settled separately, with in-range inputs
everywhere else). -/
def faceWorldCoords (position : List Vec3) (face : SimplePolygon) : List Vec3 :=
  (List.range 3).map (fun i => position.getD (face.getD i ⟨0, none, none⟩).pos vec3Zero)

/-- The per-face body of `rasterize_mesh`.  The source computes
`intensity = (normal.normalize().dot(light_dir) * 255.) as u8` where
`normalize` divides by an `f32` square root, the one operation of the
pipeline with no exact rational counterpart; that normalized dot product
is therefore taken as the parameter `shade`, applied to the face's world
coordinates, and every concrete instantiation below uses a value the
floating-point computation produces exactly.  A face is rendered only
when the 8-bit intensity is strictly positive. -/
def rasterize_face (W H : ℕ) (shade : List Vec3 → ℚ) (position : List Vec3)
    (st : Frame × ZBuf) (face : SimplePolygon) : Frame × ZBuf :=
  let world_coordinates := faceWorldCoords position face
  let screen_coordinates := world_coordinates.map (world_to_screen W H)
  let intensity := castU8 (shade world_coordinates * 255)
  if intensity > 0 then
    render_triangle W H screen_coordinates st.1 st.2
      (intensity, intensity, intensity, 255)
  else st

/-- `rasterize_mesh` from `src/rasterizer.rs`: shade and rasterize each
face in order. -/
def rasterize_mesh (W H : ℕ) (shade : List Vec3 → ℚ) (vertices : List Vec3)
    (faces : List SimplePolygon) (frame : Frame) (zbuffer : ZBuf) : Frame × ZBuf :=
  faces.foldl (rasterize_face W H shade vertices) (frame, zbuffer)

/-! ### The line rasterizer (`src/wireframe.rs`) -/

/-- The head of `draw_line`: transpose the endpoints when the line is
steep (`|dx| < |dy|`), then swap the endpoints so the walk goes left to
right.  Returns `(steep, x1, y1, x2, y2)` after both adjustments. -/
def lineSetup (x1 y1 x2 y2 : ℤ) : Bool × ℤ × ℤ × ℤ × ℤ :=
  let steep := decide (|x1 - x2| < |y1 - y2|)
  let p := if steep then (y1, x1, y2, x2) else (x1, y1, x2, y2)
  match p with
  | (a1, b1, a2, b2) =>
      if a1 > a2 then (steep, a2, b2, a1, b1) else (steep, a1, b1, a2, b2)

/-- The `for x in x1..x2` walk of `draw_line`, emitting the argument pair
of each `set_pixel` call (un-transposed when steep) and accumulating the
doubled error term. -/
def lineLoop (steep : Bool) (dx derror sy : ℤ) : ℤ → ℤ → ℤ → ℕ → List (ℤ × ℤ)
  | _, _, _, 0 => []
  | x, y, error, n + 1 =>
      let w := if steep then (y, x) else (x, y)
      let error2 := error + derror
      let p := if error2 > dx then (y + sy, error2 - dx * 2) else (y, error2)
      w :: lineLoop steep dx derror sy (x + 1) p.1 p.2 n

/-- `draw_line` from `src/wireframe.rs`, as the ordered list of pixel
coordinates it writes. -/
def draw_line (x1 y1 x2 y2 : ℤ) : List (ℤ × ℤ) :=
  match lineSetup x1 y1 x2 y2 with
  | (steep, a1, b1, a2, b2) =>
      let dx := a2 - a1
      let dy := b2 - b1
      let derror := |dy * 2|
      lineLoop steep dx derror (if b2 > b1 then 1 else -1) a1 b1 0 (a2 - a1).toNat

/-- Rust `f as usize` on an `f32` value: truncate toward zero, saturate
to the `usize` range. -/
def ratToUsize (x : ℚ) : ℕ := (max 0 (min (2 ^ 64 - 1) (ratTrunc x))).toNat

/-- Modelled from the spec: the six-argument `set_pixel(x, y, frame,
color, width, height)` called by `src/wireframe.rs` is absent from the
sources (only its call sites exist; `src/utils.rs` has the four-argument
variant).  Per the frame-buffer contract it writes the 4-byte color at
the slot computed from `(x, y)` under the buffer's flip convention, with
the passed width and height. -/
def applyLineWrites (w h : ℕ) (color : Color) (frame : Frame)
    (writes : List (ℤ × ℤ)) : Frame :=
  writes.foldl (fun fr p => set_pixel w h (usizeOf p.1) (usizeOf p.2) fr color) frame

/-- `draw_object_wireframe` from `src/wireframe.rs`: for each face, draw
only edges `0-1` and `1-2` (the `for i in 0..2` loop), projecting each
endpoint with the `(v + 1) * (dim - 1) / 2` transform.  Note the source
passes `width as usize = W - 1` and `height as usize = H - 1` to
`draw_line`. -/
def draw_object_wireframe (W H : ℕ) (defaultColor : Color)
    (vertices : List Vec3) (faces : List SimplePolygon) (frame : Frame) : Frame :=
  let width : ℚ := (W : ℚ) - 1
  let height : ℚ := (H : ℚ) - 1
  faces.foldl
    (fun fr face =>
      (List.range 2).foldl
        (fun fr i =>
          let v0 := vertices.getD (face.getD i ⟨0, none, none⟩).pos vec3Zero
          let v1 := vertices.getD (face.getD ((i + 1) % 3) ⟨0, none, none⟩).pos vec3Zero
          let x0 := (v0.x + 1) * width / 2
          let y0 := (v0.y + 1) * height / 2
          let x1 := (v1.x + 1) * width / 2
          let y1 := (v1.y + 1) * height / 2
          applyLineWrites (ratToUsize width) (ratToUsize height) defaultColor fr
            (draw_line (ratToI32 x0) (ratToI32 y0) (ratToI32 x1) (ratToI32 y1)))
        fr)
    frame

/-! ### The render loop (`src/lib.rs`) -/

/-- The `Config` of `src/lib.rs` (the mesh path and the light direction
are consumed before rendering; the light enters through `shade`). -/
structure Config where
  width : ℕ
  height : ℕ
  is_wireframe : Bool
  default_color : Color
deriving DecidableEq

/-- The z-buffer clear loop of `render_scene`:
`for i in 0..(width*height) { zbuffer[i] = f32::MIN }`. -/
def resetZ (W H : ℕ) (zb : ZBuf) : ZBuf :=
  fun n => if n < W * H then f32MIN else zb n

/-- The per-group body of `render_scene`: wireframe groups are drawn with
no depth interaction; filled groups clear the z-buffer and then
rasterize. -/
def renderGroup (cfg : Config) (shade : List Vec3 → ℚ) (position : List Vec3)
    (st : Frame × ZBuf) (g : ObjGroup) : Frame × ZBuf :=
  if cfg.is_wireframe then
    (draw_object_wireframe cfg.width cfg.height cfg.default_color position g.polys st.1,
     st.2)
  else
    rasterize_mesh cfg.width cfg.height shade position g.polys st.1
      (resetZ cfg.width cfg.height st.2)

/-- `render_scene` from `src/lib.rs`: clear the frame buffer to black
once, then iterate every group of every object. -/
def render_scene (cfg : Config) (shade : List Vec3 → ℚ) (mesh : MeshData)
    (frame : Frame) (zbuffer : ZBuf) : Frame × ZBuf :=
  let frame := clearFrame frame BLACK
  mesh.objects.foldl
    (fun st obj => obj.groups.foldl (renderGroup cfg shade mesh.position) st)
    (frame, zbuffer)

/-! ### Material-library resolution (`src/wavefront.rs`, `src/mesh/mod.rs`)

`Obj::load_mtls_fn` loads each referenced library through a caller-
supplied `resolve` closure and `Mtl::reload`; a library either fails
(contributing its name to the error aggregate) or yields its material
list.  The embedding takes those load outcomes as input: one
`(filename, Option materials)` pair per `mtllib` reference, in
declaration order, with `none` for a failed load. -/

/-- The load outcome of one material library. -/
abbrev MtlLoadResult := String × Option (List Material)

/-- Name lookup in the materials map (the source's `HashMap::get`,
modelled on an association list). -/
def alistFind (map : List (String × Material)) (n : String) : Option Material :=
  match map with
  | [] => none
  | (k, v) :: rest => if k = n then some v else alistFind rest n

/-- `materials.entry(m.name.clone()).or_insert_with(...)`: keep the
existing entry, insert only when the name is absent. -/
def insertIfAbsent (map : List (String × Material)) (m : Material) :
    List (String × Material) :=
  if (alistFind map m.name).isSome then map else map ++ [(m.name, m)]

/-- Fold one library's load outcome into the materials map (a failed
library contributes nothing). -/
def insertLib (map : List (String × Material)) (lib : MtlLoadResult) :
    List (String × Material) :=
  match lib.2 with
  | none => map
  | some ms => ms.foldl insertIfAbsent map

/-- The first phase of `Obj::load_mtls_fn`: build the name-to-material
map over the libraries in declaration order, first definition wins. -/
def buildMaterialMap (libs : List MtlLoadResult) : List (String × Material) :=
  libs.foldl insertLib []

/-- The rewrite of one group's material reference in the second phase of
`Obj::load_mtls_fn`: a reference whose name is in the map becomes the
resolved material; others are left as they are. -/
def resolveGroup (map : List (String × Material)) (g : ObjGroup) : ObjGroup :=
  match g.material with
  | some mat =>
      match alistFind map mat.name with
      | some newmat => { g with material := some (.Mtl newmat) }
      | none => g
  | none => g

/-- `Obj::load_mtls_fn` from `src/wavefront.rs`: build the first-wins
materials map, rewrite every group of every object, and return the names
of the libraries that failed to load. -/
def load_mtls_fn (libs : List MtlLoadResult) (objects : List Object) :
    List Object × List String :=
  (objects.map (fun o =>
      { o with groups := o.groups.map (resolveGroup (buildMaterialMap libs)) }),
   (libs.filter (fun l => l.2.isNone)).map (fun l => l.1))

/-- The earliest definition of a material name across the successfully
loaded libraries, in declaration order (within one library, the first
`newmtl` of that name). -/
def firstDef (libs : List MtlLoadResult) (n : String) : Option Material :=
  match libs with
  | [] => none
  | lib :: rest =>
      match lib.2 with
      | none => firstDef rest n
      | some ms =>
          match ms.find? (fun m => decide (m.name = n)) with
          | some m => some m
          | none => firstDef rest n

/-- `MeshLoader::load_mtls_fn` (`src/mesh/mod.rs`): the entire resolution
body is commented out in the source; the function ignores the libraries,
leaves every group untouched and returns `Ok(())` (modelled as `true`). -/
def meshLoader_load_mtls_fn (_libs : List MtlLoadResult) (objects : List Object) :
    List Object × Bool :=
  (objects, true)

/-! ### Depth-buffer projections of the rasterizer

The z-buffer evolution of `render_triangle` and `rasterize_mesh` never
reads the frame buffer, so it factors through the following functions;
the factorization is proved below and used for the depth-lifecycle
claims. -/

/-- The z-buffer component of `pixelStep`. -/
def pixelStepZ (W : ℕ) (vertices : List Vec3) (zb : ZBuf) (i j : ℤ) : ZBuf :=
  let v0 := vertices.getD 0 vec3Zero
  let v1 := vertices.getD 1 vec3Zero
  let point : Vec3 := ⟨(i : ℚ), (j : ℚ), 0⟩
  let bc := barycentric_coordinates vertices point
  if bc.x < 0 ∨ bc.y < 0 ∨ bc.z < 0 then zb
  else
    let z := v0.z * bc.x + v1.z * bc.y
    let q := zSlot W i j
    if zb q < z then (fun n => if n = q then z else zb n) else zb

/-- The z-buffer component of `render_triangle`. -/
def render_triangleZ (W H : ℕ) (vertices : List Vec3) (zbuffer : ZBuf) : ZBuf :=
  let v0 := vertices.getD 0 vec3Zero
  let v1 := vertices.getD 1 vec3Zero
  let v2 := vertices.getD 2 vec3Zero
  let cw : ℚ := (W : ℚ) - 1
  let ch : ℚ := (H : ℚ) - 1
  let bminx := bbMinStep (bbMinStep (bbMinStep f32MAX v0.x) v1.x) v2.x
  let bminy := bbMinStep (bbMinStep (bbMinStep f32MAX v0.y) v1.y) v2.y
  let bmaxx := bbMaxStep cw (bbMaxStep cw (bbMaxStep cw f32MIN v0.x) v1.x) v2.x
  let bmaxy := bbMaxStep ch (bbMaxStep ch (bbMaxStep ch f32MIN v0.y) v1.y) v2.y
  (intRange (ratToI32 bminx) (ratToI32 bmaxx + 1)).foldl
    (fun zb i =>
      (intRange (ratToI32 bminy) (ratToI32 bmaxy + 1)).foldl
        (fun zb j => pixelStepZ W vertices zb i j) zb)
    zbuffer

/-- The z-buffer component of `rasterize_face`. -/
def rasterize_faceZ (W H : ℕ) (shade : List Vec3 → ℚ) (position : List Vec3)
    (zb : ZBuf) (face : SimplePolygon) : ZBuf :=
  let world_coordinates := faceWorldCoords position face
  let screen_coordinates := world_coordinates.map (world_to_screen W H)
  let intensity := castU8 (shade world_coordinates * 255)
  if intensity > 0 then render_triangleZ W H screen_coordinates zb else zb

/-- The z-buffer component of `rasterize_mesh`. -/
def rasterize_meshZ (W H : ℕ) (shade : List Vec3 → ℚ) (vertices : List Vec3)
    (faces : List SimplePolygon) (zb : ZBuf) : ZBuf :=
  faces.foldl (rasterize_faceZ W H shade vertices) zb

/-! ### Concrete instances used by the claim theorems -/

/-- An input whose face references position 2 while only one position has
been declared. -/
def c1Input : List String := ["v 0 0 0", "f 2 2 2"]

/-- The `usemtl`-splitting input of the spec's testable property. -/
def c9Input : List String :=
  ["v 0 0 0", "v 0 0 0", "v 0 0 0", "usemtl A", "f 1 2 3", "usemtl B"]

/-- An all-black frame buffer. -/
def frame0 : Frame := fun _ => BLACK

/-- A depth buffer holding `f32::MIN` everywhere, the cleared state. -/
def zbuf0 : ZBuf := fun _ => f32MIN

/-- Screen-space triangle with depth `1/5` at pixel `(0, 1)` and depth
`9/10` at pixel `(2, 0)` (vertex 2 sits on that pixel, and the two-term
interpolation weights give the second vertex's z there). -/
def c4T1 : List Vec3 := [⟨0, 1, 1/5⟩, ⟨2, 2, 9/10⟩, ⟨2, 0, 0⟩]

/-- Screen-space triangle with depth `4/5` at pixel `(0, 1)`. -/
def c4T2 : List Vec3 := [⟨0, 1, 4/5⟩, ⟨1, 1, 0⟩, ⟨0, 2, 0⟩]

/-- Color of the depth-`1/5` triangle. -/
def colorA : Color := (10, 10, 10, 255)

/-- Color of the depth-`4/5` triangle. -/
def colorB : Color := (200, 200, 200, 255)

/-- One triangle face over the first three positions. -/
def c2Tri : SimplePolygon := [⟨0, none, none⟩, ⟨1, none, none⟩, ⟨2, none, none⟩]

/-- Positions of a triangle in the plane `z = 1/2`; its face normal is
exactly `(0, 0, 1)` after `f32` unit normalization, so with light
direction `(0, 0, 1)` the normalized dot product is exactly `1`. -/
def c2Position : List Vec3 := [⟨-1, -1, 1/2⟩, ⟨1, -1, 1/2⟩, ⟨-1, 1, 1/2⟩]

/-- A mesh with two groups in one object: the triangle group, then an
empty group. -/
def c2Mesh : MeshData :=
  { emptyMeshData with
    position := c2Position,
    objects := [⟨"default", [⟨"g1", 0, none, [c2Tri]⟩, ⟨"g2", 0, none, []⟩]⟩] }

/-- A 4 by 4 filled-mode render configuration. -/
def c2Cfg : Config := ⟨4, 4, false, BLACK⟩

/-- The exact `f32` value of the normalized-normal dot light for the
`c2Position` triangle (see `c2Position`). -/
def c2Shade : List Vec3 → ℚ := fun _ => 1

/-- A mesh of two vertices at exact `f32` coordinates
`(-1.4999985694885254, -1.7499995231628418, 0)` and
`(7.999998092651367, -2.5, 0)`.  Normalizing it once yields x
coordinates `-1` and `8388609/8388608` — the latter one ulp above `1` —
so a second normalization runs again instead of exiting early. -/
def c5Mesh : List Vec3 :=
  [⟨-3145725/2097152, -3670015/2097152, 0⟩, ⟨4194303/524288, -5/2, 0⟩]

/-- The image of `c5Mesh` under one normalization pass, obtained by
evaluating every rounded `f32` operation of the model exactly. -/
def c5Out1 : List Vec3 :=
  [⟨-1, -14128175/134217728, 0⟩, ⟨8388609/8388608, -4415059/16777216, 0⟩]

/-- The image of `c5Out1` under a further normalization pass: because
`8388609/8388608 > 1` the early exit does not fire, and the y
coordinates move again even though the x coordinates are fixed. -/
def c5Out2 : List Vec3 :=
  [⟨-1, 3532061/134217728, 0⟩, ⟨8388609/8388608, -4415059/33554432, 0⟩]

/-- A material named Red with no attributes. -/
def red1 : Material := Material.new "Red"

/-- A second, different material also named Red. -/
def red2 : Material := { Material.new "Red" with kd := some (1, 0, 0) }

/-- Two successfully loaded libraries that both define Red. -/
def c7Libs : List MtlLoadResult := [("a.mtl", some [red1]), ("b.mtl", some [red2])]

/-- One object with one group referencing Red by name. -/
def c7Objs : List Object := [⟨"o", [⟨"g", 0, some (.Ref "Red"), []⟩]⟩]

/-! ### Invariants of the extrema fold -/

/-- The extrema are seeded at `0`: minima stay nonpositive, maxima stay
nonnegative throughout the fold. -/
def mmSeeded (m : MinMax) : Prop :=
  m.xmin ≤ 0 ∧ 0 ≤ m.xmax ∧ m.ymin ≤ 0 ∧ 0 ≤ m.ymax ∧ m.zmin ≤ 0 ∧ 0 ≤ m.zmax

/-- A vertex lies within the extrema. -/
def mmBounds (m : MinMax) (v : Vec3) : Prop :=
  m.xmin ≤ v.x ∧ v.x ≤ m.xmax ∧ m.ymin ≤ v.y ∧ v.y ≤ m.ymax ∧
    m.zmin ≤ v.z ∧ v.z ≤ m.zmax

/-- All six extrema lie within `[-1, 1]`. -/
def mmIn1 (m : MinMax) : Prop :=
  |m.xmin| ≤ 1 ∧ |m.xmax| ≤ 1 ∧ |m.ymin| ≤ 1 ∧ |m.ymax| ≤ 1 ∧
    |m.zmin| ≤ 1 ∧ |m.zmax| ≤ 1

/-! ### Supporting lemmas -/

theorem lineLoop_map_x (steep : Bool) (dx derror sy : ℤ) :
    ∀ (n : ℕ) (x y error : ℤ),
      (lineLoop steep dx derror sy x y error n).map
          (fun w => if steep then w.2 else w.1) =
        (List.range n).map (fun k : ℕ => x + (k : ℤ)) := by
  intro n
  induction n with
  | zero => intro x y error; rfl
  | succ n ih =>
    intro x y error
    have step :
        lineLoop steep dx derror sy x y error (n + 1) =
          (if steep then ((y, x) : ℤ × ℤ) else (x, y)) ::
            lineLoop steep dx derror sy (x + 1)
              (if error + derror > dx then ((y + sy, error + derror - dx * 2) : ℤ × ℤ)
                else (y, error + derror)).1
              (if error + derror > dx then ((y + sy, error + derror - dx * 2) : ℤ × ℤ)
                else (y, error + derror)).2 n := rfl
    rw [step, List.map_cons, ih, List.range_succ_eq_map, List.map_cons, List.map_map]
    have hw : (if steep = true then (if steep = true then ((y, x) : ℤ × ℤ) else (x, y)).2
        else (if steep = true then ((y, x) : ℤ × ℤ) else (x, y)).1) = x := by
      cases steep <;> rfl
    rw [hw]
    congr 1
    · norm_num
    · refine List.map_congr_left fun k _ => ?_
      simp only [Function.comp]
      push_cast
      ring

theorem not_mem_intRange_hi (lo hi : ℤ) : hi ∉ intRange lo hi := by
  simp only [intRange, List.mem_map, List.mem_range]
  rintro ⟨k, hk, he⟩
  omega

theorem foldl_snd_eq {α β γ : Type} (f : β × γ → α → β × γ) (g : γ → α → γ)
    (h : ∀ st a, (f st a).2 = g st.2 a) :
    ∀ (l : List α) (st : β × γ), (l.foldl f st).2 = l.foldl g st.2 := by
  intro l
  induction l with
  | nil => intro st; rfl
  | cons a rest ih =>
    intro st
    rw [List.foldl_cons, List.foldl_cons, ih, h]

theorem pixelStep_snd (W H : ℕ) (vs : List Vec3) (c : Color)
    (st : Frame × ZBuf) (i j : ℤ) :
    (pixelStep W H vs c st i j).2 = pixelStepZ W vs st.2 i j := by
  unfold pixelStep pixelStepZ
  dsimp only
  split_ifs <;> rfl

theorem render_triangle_snd (W H : ℕ) (vs : List Vec3) (fr : Frame)
    (zb : ZBuf) (c : Color) :
    (render_triangle W H vs fr zb c).2 = render_triangleZ W H vs zb := by
  unfold render_triangle render_triangleZ
  dsimp only
  refine foldl_snd_eq _
    (fun zb i =>
      (intRange (ratToI32 (bbMinStep (bbMinStep (bbMinStep f32MAX (vs.getD 0 vec3Zero).y) (vs.getD 1 vec3Zero).y) (vs.getD 2 vec3Zero).y))
          (ratToI32 (bbMaxStep ((H : ℚ) - 1) (bbMaxStep ((H : ℚ) - 1) (bbMaxStep ((H : ℚ) - 1) f32MIN (vs.getD 0 vec3Zero).y) (vs.getD 1 vec3Zero).y) (vs.getD 2 vec3Zero).y) + 1)).foldl
        (fun zb j => pixelStepZ W vs zb i j) zb)
    (fun st i => ?_) _ (fr, zb)
  exact foldl_snd_eq (fun st j => pixelStep W H vs c st i j)
    (fun zb j => pixelStepZ W vs zb i j)
    (fun st j => pixelStep_snd W H vs c st i j) _ st

theorem rasterize_face_snd (W H : ℕ) (shade : List Vec3 → ℚ)
    (position : List Vec3) (st : Frame × ZBuf) (face : SimplePolygon) :
    (rasterize_face W H shade position st face).2 =
      rasterize_faceZ W H shade position st.2 face := by
  unfold rasterize_face rasterize_faceZ
  dsimp only
  split_ifs with h
  · exact render_triangle_snd _ _ _ _ _ _
  · rfl

theorem rasterize_mesh_snd (W H : ℕ) (shade : List Vec3 → ℚ)
    (vertices : List Vec3) (faces : List SimplePolygon) (fr : Frame) (zb : ZBuf) :
    (rasterize_mesh W H shade vertices faces fr zb).2 =
      rasterize_meshZ W H shade vertices faces zb := by
  unfold rasterize_mesh rasterize_meshZ
  exact foldl_snd_eq _ _ (fun st a => rasterize_face_snd W H shade vertices st a) faces (fr, zb)

theorem foldl_pointwise {γ α : Type} (g : γ → α → γ) (P : γ → γ → Prop)
    (hstep : ∀ zb zb' a, P zb zb' → P (g zb a) (g zb' a)) :
    ∀ (l : List α) (zb zb' : γ), P zb zb' → P (l.foldl g zb) (l.foldl g zb') := by
  intro l
  induction l with
  | nil => intro zb zb' h; exact h
  | cons a rest ih =>
    intro zb zb' h
    exact ih _ _ (hstep _ _ _ h)

theorem zwrite_point (zb zb' : ZBuf) (q : ℕ) (z : ℚ) (n : ℕ) (h : zb n = zb' n) :
    (if zb q < z then (fun m => if m = q then z else zb m) else zb) n =
      (if zb' q < z then (fun m => if m = q then z else zb' m) else zb') n := by
  by_cases hq : n = q
  · subst hq
    by_cases hc : zb' n < z
    · have hc2 : zb n < z := by rw [h]; exact hc
      rw [if_pos hc2, if_pos hc]
      simp
    · have hc2 : ¬ zb n < z := by rw [h]; exact hc
      rw [if_neg hc2, if_neg hc]
      exact h
  · split_ifs with hc1 hc2 <;> simp [hq, h]

theorem pixelStepZ_point (W : ℕ) (vs : List Vec3) (i j : ℤ) (n : ℕ)
    (zb zb' : ZBuf) (h : zb n = zb' n) :
    pixelStepZ W vs zb i j n = pixelStepZ W vs zb' i j n := by
  unfold pixelStepZ
  dsimp only
  by_cases h1 : (barycentric_coordinates vs ⟨(i : ℚ), (j : ℚ), 0⟩).x < 0 ∨
      (barycentric_coordinates vs ⟨(i : ℚ), (j : ℚ), 0⟩).y < 0 ∨
      (barycentric_coordinates vs ⟨(i : ℚ), (j : ℚ), 0⟩).z < 0
  · rw [if_pos h1, if_pos h1]
    exact h
  · rw [if_neg h1, if_neg h1]
    exact zwrite_point zb zb' (zSlot W i j) _ n h

theorem render_triangleZ_point (W H : ℕ) (vs : List Vec3) (n : ℕ)
    (zb zb' : ZBuf) (h : zb n = zb' n) :
    render_triangleZ W H vs zb n = render_triangleZ W H vs zb' n := by
  unfold render_triangleZ
  refine foldl_pointwise _ (fun a b => a n = b n)
    (fun zb zb' i hp => ?_) _ zb zb' h
  exact foldl_pointwise _ (fun a b => a n = b n)
    (fun zb zb' j hp => pixelStepZ_point W vs i j n zb zb' hp) _ zb zb' hp

theorem rasterize_faceZ_point (W H : ℕ) (shade : List Vec3 → ℚ)
    (position : List Vec3) (face : SimplePolygon) (n : ℕ)
    (zb zb' : ZBuf) (h : zb n = zb' n) :
    rasterize_faceZ W H shade position zb face n =
      rasterize_faceZ W H shade position zb' face n := by
  unfold rasterize_faceZ
  split_ifs with h1
  · exact render_triangleZ_point W H _ n zb zb' h
  · exact h

theorem rasterize_meshZ_point (W H : ℕ) (shade : List Vec3 → ℚ)
    (vertices : List Vec3) (faces : List SimplePolygon) (n : ℕ)
    (zb zb' : ZBuf) (h : zb n = zb' n) :
    rasterize_meshZ W H shade vertices faces zb n =
      rasterize_meshZ W H shade vertices faces zb' n := by
  unfold rasterize_meshZ
  exact foldl_pointwise _ (fun a b => a n = b n)
    (fun zb zb' face hp => rasterize_faceZ_point W H shade vertices face n zb zb' hp)
    faces zb zb' h

theorem alistFind_append (a b : List (String × Material)) (n : String) :
    alistFind (a ++ b) n =
      match alistFind a n with
      | some v => some v
      | none => alistFind b n := by
  induction a with
  | nil => cases h : alistFind b n <;> simp [alistFind, h]
  | cons e rest ih =>
    obtain ⟨k, v⟩ := e
    by_cases h : k = n
    · simp [alistFind, h]
    · simp only [List.cons_append, alistFind, if_neg h]
      exact ih

theorem insertAll_find (n : String) :
    ∀ (ms : List Material) (map : List (String × Material)),
      alistFind (ms.foldl insertIfAbsent map) n =
        match alistFind map n with
        | some v => some v
        | none => ms.find? (fun m => decide (m.name = n)) := by
  intro ms
  induction ms with
  | nil => intro map; cases h : alistFind map n <;> simp [h]
  | cons m rest ih =>
    intro map
    rw [List.foldl_cons, ih]
    unfold insertIfAbsent
    by_cases habs : (alistFind map m.name).isSome
    · rw [if_pos habs]
      cases h : alistFind map n with
      | some v => simp [h]
      | none =>
        simp only [h]
        rw [List.find?_cons]
        by_cases hmn : m.name = n
        · exfalso
          rw [hmn, h] at habs
          simp at habs
        · simp [hmn]
    · rw [if_neg habs]
      rw [alistFind_append]
      cases h : alistFind map n with
      | some v => simp [h]
      | none =>
        simp only [h]
        rw [List.find?_cons]
        by_cases hmn : m.name = n
        · simp [alistFind, hmn]
        · simp [alistFind, hmn]

theorem buildMap_find (n : String) :
    ∀ (libs : List MtlLoadResult) (map : List (String × Material)),
      alistFind (libs.foldl insertLib map) n =
        match alistFind map n with
        | some v => some v
        | none => firstDef libs n := by
  intro libs
  induction libs with
  | nil => intro map; cases h : alistFind map n <;> simp [firstDef, h]
  | cons lib rest ih =>
    intro map
    obtain ⟨name, oms⟩ := lib
    cases oms with
    | none =>
      rw [List.foldl_cons]
      have hstep : insertLib map (name, none) = map := rfl
      rw [hstep, ih]
      cases h : alistFind map n <;> simp [firstDef, h]
    | some ms =>
      rw [List.foldl_cons]
      have hstep : insertLib map (name, some ms) = ms.foldl insertIfAbsent map := rfl
      rw [hstep, ih, insertAll_find]
      cases h : alistFind map n with
      | some v => simp [firstDef, h]
      | none =>
        simp only [h]
        cases hf : ms.find? (fun m => decide (m.name = n)) <;>
          simp [firstDef, hf]

theorem stepMinMax_mono (mn mx c : ℚ) :
    (stepMinMax mn mx c).1 ≤ mn ∧ mx ≤ (stepMinMax mn mx c).2 := by
  unfold stepMinMax
  split_ifs <;> constructor <;> first | rfl | linarith

theorem stepMinMax_seeded (mn mx c : ℚ) (h1 : mn ≤ 0) (h2 : 0 ≤ mx) :
    (stepMinMax mn mx c).1 ≤ 0 ∧ 0 ≤ (stepMinMax mn mx c).2 := by
  unfold stepMinMax
  split_ifs <;> constructor <;> first | assumption | linarith

theorem stepMinMax_bounds (mn mx c : ℚ) (h : mn ≤ mx) :
    (stepMinMax mn mx c).1 ≤ c ∧ c ≤ (stepMinMax mn mx c).2 := by
  unfold stepMinMax
  split_ifs <;> constructor <;> linarith

theorem stepMinMax_in1 (mn mx c : ℚ) (hmn : |mn| ≤ 1) (hmx : |mx| ≤ 1)
    (hc : |c| ≤ 1) :
    |(stepMinMax mn mx c).1| ≤ 1 ∧ |(stepMinMax mn mx c).2| ≤ 1 := by
  unfold stepMinMax
  split_ifs <;> exact ⟨by assumption, by assumption⟩

theorem minMaxStep_seeded (st : MinMax) (v : Vec3) (h : mmSeeded st) :
    mmSeeded (minMaxStep st v) := by
  obtain ⟨h1, h2, h3, h4, h5, h6⟩ := h
  have hx := stepMinMax_seeded st.xmin st.xmax v.x h1 h2
  have hy := stepMinMax_seeded st.ymin st.ymax v.y h3 h4
  have hz := stepMinMax_seeded st.zmin st.zmax v.z h5 h6
  exact ⟨hx.1, hx.2, hy.1, hy.2, hz.1, hz.2⟩

theorem minMaxStep_mono (st : MinMax) (v : Vec3) :
    (minMaxStep st v).xmin ≤ st.xmin ∧ st.xmax ≤ (minMaxStep st v).xmax ∧
    (minMaxStep st v).ymin ≤ st.ymin ∧ st.ymax ≤ (minMaxStep st v).ymax ∧
    (minMaxStep st v).zmin ≤ st.zmin ∧ st.zmax ≤ (minMaxStep st v).zmax := by
  have hx := stepMinMax_mono st.xmin st.xmax v.x
  have hy := stepMinMax_mono st.ymin st.ymax v.y
  have hz := stepMinMax_mono st.zmin st.zmax v.z
  exact ⟨hx.1, hx.2, hy.1, hy.2, hz.1, hz.2⟩

theorem minMaxStep_bounds_self (st : MinMax) (v : Vec3) (h : mmSeeded st) :
    mmBounds (minMaxStep st v) v := by
  obtain ⟨h1, h2, h3, h4, h5, h6⟩ := h
  have hx := stepMinMax_bounds st.xmin st.xmax v.x (le_trans h1 h2)
  have hy := stepMinMax_bounds st.ymin st.ymax v.y (le_trans h3 h4)
  have hz := stepMinMax_bounds st.zmin st.zmax v.z (le_trans h5 h6)
  exact ⟨hx.1, hx.2, hy.1, hy.2, hz.1, hz.2⟩

theorem minMaxStep_bounds_mono (st : MinMax) (w v : Vec3) (h : mmBounds st v) :
    mmBounds (minMaxStep st w) v := by
  obtain ⟨h1, h2, h3, h4, h5, h6⟩ := h
  have hm := minMaxStep_mono st w
  exact ⟨le_trans hm.1 h1, le_trans h2 hm.2.1,
         le_trans hm.2.2.1 h3, le_trans h4 hm.2.2.2.1,
         le_trans hm.2.2.2.2.1 h5, le_trans h6 hm.2.2.2.2.2⟩

theorem minMaxStep_in1 (st : MinMax) (v : Vec3) (h : mmIn1 st)
    (hv : |v.x| ≤ 1 ∧ |v.y| ≤ 1 ∧ |v.z| ≤ 1) : mmIn1 (minMaxStep st v) := by
  obtain ⟨h1, h2, h3, h4, h5, h6⟩ := h
  have hx := stepMinMax_in1 st.xmin st.xmax v.x h1 h2 hv.1
  have hy := stepMinMax_in1 st.ymin st.ymax v.y h3 h4 hv.2.1
  have hz := stepMinMax_in1 st.zmin st.zmax v.z h5 h6 hv.2.2
  exact ⟨hx.1, hx.2, hy.1, hy.2, hz.1, hz.2⟩

theorem minMax_fold_seeded (vs : List Vec3) :
    ∀ st : MinMax, mmSeeded st → mmSeeded (vs.foldl minMaxStep st) := by
  induction vs with
  | nil => intro st h; exact h
  | cons v rest ih => intro st h; exact ih _ (minMaxStep_seeded st v h)

theorem minMax_fold_bounds_mono (vs : List Vec3) :
    ∀ (st : MinMax) (v : Vec3), mmBounds st v → mmBounds (vs.foldl minMaxStep st) v := by
  induction vs with
  | nil => intro st v h; exact h
  | cons w rest ih => intro st v h; exact ih _ _ (minMaxStep_bounds_mono st w v h)

theorem minMax_mem_bounds (vs : List Vec3) :
    ∀ (st : MinMax), mmSeeded st →
      ∀ v ∈ vs, mmBounds (vs.foldl minMaxStep st) v := by
  induction vs with
  | nil => intro st _ v hv; cases hv
  | cons w rest ih =>
    intro st hseed v hv
    rw [List.foldl_cons]
    rcases List.mem_cons.mp hv with rfl | hv
    · exact minMax_fold_bounds_mono rest _ v (minMaxStep_bounds_self st v hseed)
    · exact ih _ (minMaxStep_seeded st w hseed) v hv

theorem minMax_fold_in1 (vs : List Vec3)
    (hvs : ∀ v ∈ vs, |v.x| ≤ 1 ∧ |v.y| ≤ 1 ∧ |v.z| ≤ 1) :
    ∀ st : MinMax, mmIn1 st → mmIn1 (vs.foldl minMaxStep st) := by
  induction vs with
  | nil => intro st h; exact h
  | cons v rest ih =>
    intro st h
    exact ih (fun w hw => hvs w (List.mem_cons_of_mem v hw)) _
      (minMaxStep_in1 st v h (hvs v (List.mem_cons_self v rest)))

theorem min_max_vertices_seeded (vs : List Vec3) : mmSeeded (min_max_vertices vs) :=
  minMax_fold_seeded vs _ ⟨le_refl 0, le_refl 0, le_refl 0, le_refl 0, le_refl 0, le_refl 0⟩

theorem min_max_vertices_bounds (vs : List Vec3) :
    ∀ v ∈ vs, mmBounds (min_max_vertices vs) v :=
  minMax_mem_bounds vs _ ⟨le_refl 0, le_refl 0, le_refl 0, le_refl 0, le_refl 0, le_refl 0⟩

theorem isValid_iff (m : MinMax) :
    isValidValues m = true ↔ mmIn1 m := by
  unfold isValidValues minMaxList mmIn1
  simp [List.all_cons, Bool.and_eq_true, decide_eq_true_eq, abs_le]
  tauto


/-! ### The claims -/

/-- C1, counterexample: the claim asserts that a face index resolving out
of range is rejected with a parse error.  The input `c1Input` declares
one position and then the face `f 2 2 2`; `load_buf` accepts it
(`Ok`), storing the resolved position index `1`, which is not below the
position-array length `1`. -/
theorem C1_counterexample :
    load_buf c1Input = .ok { emptyMeshData with
      position := [⟨0, 0, 0⟩],
      objects := [⟨"default", [⟨"default", 0, none,
        [[⟨1, none, none⟩, ⟨1, none, none⟩, ⟨1, none, none⟩]]⟩]⟩] } ∧
    ¬ (1 < [(⟨0, 0, 0⟩ : Vec3)].length) := by
  exact ⟨by decide, by decide⟩

/-- C1, amended: `parse_group` performs no bounds check at all — whether
a face group is accepted depends only on its token text, never on the
current array lengths; an out-of-range resolved index is stored as-is
(the source then panics when the rasterizer indexes with it, rather than
reporting a parse error). -/
theorem C1_no_bounds_check (md md' : MeshData) (ln ln' : ℕ) (g : String) :
    (parse_group md ln g).isOk = (parse_group md' ln' g).isOk := by
  unfold parse_group
  dsimp only
  cases ((strSplitOn '/' g).get? 0).bind parseIntTok <;> rfl

/-- C3: the depth-buffer slot that `render_triangle` reads and writes for
pixel `(i, j)` is `zSlot`, whose row stride is `W - 1` instead of `W`;
at the source dimensions `W = H = 512` the distinct in-range pixels
`(511, 0)` and `(0, 1)` share slot `511`, so the mapping is not
injective. -/
theorem C3_zslot_collision :
    zSlot 512 511 0 = zSlot 512 0 1 ∧ ((511, 0) : ℤ × ℤ) ≠ (0, 1) := by decide

/-- C4: two triangles that both cover pixel `(0, 1)` of a `3 × 3`
viewport, with interpolated depths `1/5` and `4/5` there, both rendered
(shading positive).  Because `c4T1` also covers pixel `(2, 0)`, which
shares the depth slot of `(0, 1)` under the `W - 1` stride, rendering
`c4T1` first leaves the pixel with the color of the depth-`1/5` triangle
— the claimed order-independent nearer-wins outcome fails.  (Rendering
in the other order does give the depth-`4/5` color, so the result is
also order-dependent.) -/
theorem C4_depth_slot_aliasing :
    (let bc := barycentric_coordinates c4T1 ⟨0, 1, 0⟩
     (c4T1.getD 0 vec3Zero).z * bc.x + (c4T1.getD 1 vec3Zero).z * bc.y = 1/5 ∧
     0 ≤ bc.x ∧ 0 ≤ bc.y ∧ 0 ≤ bc.z) ∧
    (let bc := barycentric_coordinates c4T2 ⟨0, 1, 0⟩
     (c4T2.getD 0 vec3Zero).z * bc.x + (c4T2.getD 1 vec3Zero).z * bc.y = 4/5 ∧
     0 ≤ bc.x ∧ 0 ≤ bc.y ∧ 0 ≤ bc.z) ∧
    (let s1 := render_triangle 3 3 c4T1 frame0 zbuf0 colorA
     let s2 := render_triangle 3 3 c4T2 s1.1 s1.2 colorB
     s2.1 3 = colorA) ∧
    (let s1 := render_triangle 3 3 c4T2 frame0 zbuf0 colorB
     let s2 := render_triangle 3 3 c4T1 s1.1 s1.2 colorA
     s2.1 3 = colorB) ∧
    colorA ≠ colorB := by with_unfolding_all decide

/-- C6, counterexample: the claim says a non-negative source index `i`
resolves to internal index `i - 1`; at `i = 0` the source computes
`0usize - 1`, which wraps (or panics in a debug build) instead of
producing `-1`. -/
theorem C6_counterexample : ¬ ((normalizeIndex 0 5 : ℤ) = 0 - 1) := by decide

/-- C6, amended: a positive source index `i` resolves to `i - 1`, and a
negative index `i` with `len + i` in range resolves to `len + i`; index
`0` and negative indices past the start wrap modulo 2 ^ 64. -/
theorem C6_amended (i : ℤ) (len : ℕ) :
    (1 ≤ i → i < 2 ^ 64 → (normalizeIndex i len : ℤ) = i - 1) ∧
    (i < 0 → 0 ≤ (len : ℤ) + i → (len : ℤ) + i < 2 ^ 64 →
      (normalizeIndex i len : ℤ) = (len : ℤ) + i) := by
  unfold normalizeIndex usizeOf usizeSub1
  constructor
  · intro h1 h2
    rw [if_neg (by omega)]
    omega
  · intro h1 h2 h3
    rw [if_pos h1]
    omega

/-- C6, witness: index `3` resolves to `2`, and index `-1` against ten
declared positions resolves to `9`, the most recently declared one. -/
theorem C6_amended_witness :
    (normalizeIndex 3 10 : ℤ) = 3 - 1 ∧
    (normalizeIndex (-1) 10 : ℤ) = (10 : ℤ) + (-1) :=
  ⟨(C6_amended 3 10).1 (by decide) (by decide),
   (C6_amended (-1) 10).2 (by decide) (by decide) (by decide)⟩

/-- C8: a face whose 8-bit shading intensity is not strictly positive is
culled — `rasterize_face` returns the frame buffer and the depth buffer
unchanged, with no writes to either. -/
theorem C8_nonpositive_intensity_culls (W H : ℕ) (shade : List Vec3 → ℚ)
    (position : List Vec3) (st : Frame × ZBuf) (face : SimplePolygon)
    (h : castU8 (shade (faceWorldCoords position face) * 255) = 0) :
    rasterize_face W H shade position st face = st := by
  simp [rasterize_face, h]

/-- C8, witness: a concrete face with nonpositive shading leaves the
concrete buffers untouched. -/
theorem C8_witness :
    rasterize_face 4 4 (fun _ => 0) c2Position (frame0, zbuf0) c2Tri = (frame0, zbuf0) :=
  C8_nonpositive_intensity_culls 4 4 (fun _ => 0) c2Position (frame0, zbuf0) c2Tri
    (by with_unfolding_all decide)

/-- C9: parsing `usemtl A`, a face, then `usemtl B` with no intervening
`g`/`o` yields two distinct groups of the same object sharing the name
`default`, with disambiguation indices `0` and `1`, the first holding
the face read under material `A` and the second holding material `B`;
the `material` field being an `Option` makes at most one material per
group structural. -/
theorem C9_usemtl_splits_groups :
    load_buf c9Input = .ok { emptyMeshData with
      position := [⟨0, 0, 0⟩, ⟨0, 0, 0⟩, ⟨0, 0, 0⟩],
      objects := [⟨"default",
        [⟨"default", 0, some (.Ref "A"),
           [[⟨0, none, none⟩, ⟨1, none, none⟩, ⟨2, none, none⟩]]⟩,
         ⟨"default", 1, some (.Ref "B"), []⟩]⟩] } ∧
    (⟨"default", 0, some (.Ref "A"),
       [[⟨0, none, none⟩, ⟨1, none, none⟩, ⟨2, none, none⟩]]⟩ : ObjGroup) ≠
      ⟨"default", 1, some (.Ref "B"), []⟩ := by
  exact ⟨by decide, by decide⟩

/-- C10: after the steep transposition and the endpoint swap of
`lineSetup`, the pixels written by `draw_line` walk exactly the
half-open range `[x1, x2)` of (possibly transposed) x coordinates, one
pixel per value in order, and the final endpoint x coordinate `x2` is
never drawn. -/
theorem C10_half_open_walk (x1 y1 x2 y2 : ℤ) :
    ((draw_line x1 y1 x2 y2).map
        (fun w => if (lineSetup x1 y1 x2 y2).1 then w.2 else w.1) =
      intRange (lineSetup x1 y1 x2 y2).2.1 (lineSetup x1 y1 x2 y2).2.2.2.1) ∧
    (lineSetup x1 y1 x2 y2).2.2.2.1 ∉
      (draw_line x1 y1 x2 y2).map
        (fun w => if (lineSetup x1 y1 x2 y2).1 then w.2 else w.1) := by
  rcases hs : lineSetup x1 y1 x2 y2 with ⟨steep, a1, b1, a2, b2⟩
  have hd : draw_line x1 y1 x2 y2 =
      lineLoop steep (a2 - a1) (|(b2 - b1) * 2|) (if b2 > b1 then 1 else -1)
        a1 b1 0 (a2 - a1).toNat := by
    unfold draw_line
    rw [hs]
  rw [hd]
  dsimp only
  constructor
  · rw [lineLoop_map_x]
    rfl
  · rw [lineLoop_map_x]
    have := not_mem_intRange_hi a1 a2
    simpa [intRange] using this

/-- C7, counterexample: the claim says every by-name reference to a
material defined in a successfully loaded library is rewritten to the
resolved state; `MeshLoader::load_mtls_fn` in `src/mesh/mod.rs` has its
whole body commented out, so the reference to Red stays `Ref` even
though a loaded library defines Red. -/
theorem C7_counterexample :
    (meshLoader_load_mtls_fn c7Libs c7Objs).1 = c7Objs ∧
    ((c7Objs.get? 0).bind (fun o => o.groups.get? 0)).map ObjGroup.material =
      some (some (.Ref "Red")) ∧
    (firstDef c7Libs "Red").isSome = true := by
  exact ⟨rfl, by decide, by decide⟩

/-- C7, amended for `Obj::load_mtls_fn` (`src/wavefront.rs`), where the
resolution is implemented: every group whose reference names a material
defined in at least one successfully loaded library is rewritten to the
resolved state, bound to the definition from the earliest-declared
loaded library defining that name; later duplicate definitions are
ignored. -/
theorem C7_first_loaded_library_wins (libs : List MtlLoadResult) (objs : List Object)
    (i j : ℕ) (o : Object) (g : ObjGroup) (mat : ObjMaterial) (m : Material)
    (ho : objs.get? i = some o) (hg : o.groups.get? j = some g)
    (hm : g.material = some mat) (hf : firstDef libs mat.name = some m) :
    (((load_mtls_fn libs objs).1.get? i).bind (fun o => o.groups.get? j)) =
      some { g with material := some (.Mtl m) } := by
  have hfind : alistFind (buildMaterialMap libs) mat.name = some m := by
    have h := buildMap_find mat.name libs []
    unfold buildMaterialMap
    rw [h]
    simpa [alistFind] using hf
  simp only [load_mtls_fn, List.get?_map, ho, Option.map_some, Option.some_bind,
    List.get?_map, hg]
  simp only [Option.map_some', Option.some_bind, List.get?_map, hg]
  simp [resolveGroup, hm, hfind]

/-- C7, witness: with two loaded libraries both defining Red, the group
referencing Red resolves to the first library's definition. -/
theorem C7_witness :
    (((load_mtls_fn c7Libs c7Objs).1.get? 0).bind (fun o => o.groups.get? 0)) =
      some ⟨"g", 0, some (.Mtl red1), []⟩ :=
  C7_first_loaded_library_wins c7Libs c7Objs 0 0
    ⟨"o", [⟨"g", 0, some (.Ref "Red"), []⟩]⟩
    ⟨"g", 0, some (.Ref "Red"), []⟩ (.Ref "Red") red1 rfl rfl rfl
    (by with_unfolding_all decide)

/-- C2, counterexample: the claim says depth values written while
rasterizing one group remain in the buffer while the frame's later
groups are rasterized.  In `c2Mesh` the first group writes depth `1/3`
at slot `4` (second conjunct), but after the whole frame — whose second
group is empty and rasterizes nothing — the slot holds `f32::MIN`
again: `render_scene` clears the depth buffer before every group, not
once per frame. -/
theorem C2_counterexample :
    (render_scene c2Cfg c2Shade c2Mesh frame0 zbuf0).2 4 = f32MIN ∧
    (rasterize_mesh 4 4 c2Shade c2Mesh.position [c2Tri] frame0 (resetZ 4 4 zbuf0)).2 4 = 1/3 ∧
    (1/3 : ℚ) ≠ f32MIN :=
  ⟨by with_unfolding_all rfl, by with_unfolding_all decide,
   ne_of_gt (show f32MIN < 1/3 by with_unfolding_all decide)⟩

/-- C2, amended: in a filled frame the depth buffer is reset to
`f32::MIN` at the start of every group, not once per frame, so the final
depth buffer of a frame is exactly the depth buffer produced by
rasterizing only the last group from a freshly cleared buffer (at every
in-range slot). -/
theorem C2_depth_reset_per_group (cfg : Config) (shade : List Vec3 → ℚ)
    (mesh : MeshData) (frame : Frame) (zb : ZBuf) (gs : List ObjGroup) (g : ObjGroup)
    (hw : cfg.is_wireframe = false)
    (hg : (mesh.objects.map Object.groups).flatten = gs ++ [g])
    (n : ℕ) (hn : n < cfg.width * cfg.height) :
    (render_scene cfg shade mesh frame zb).2 n =
      rasterize_meshZ cfg.width cfg.height shade mesh.position g.polys
        (fun _ => f32MIN) n := by
  unfold render_scene
  have hconv :
      mesh.objects.foldl
          (fun st obj => obj.groups.foldl (renderGroup cfg shade mesh.position) st)
          (clearFrame frame BLACK, zb) =
        (mesh.objects.map Object.groups).flatten.foldl
          (renderGroup cfg shade mesh.position) (clearFrame frame BLACK, zb) := by
    rw [List.foldl_flatten, List.foldl_map]
  dsimp only
  rw [hconv, hg, List.foldl_append, List.foldl_cons, List.foldl_nil]
  unfold renderGroup
  simp only [hw, Bool.false_eq_true, if_false]
  rw [rasterize_mesh_snd]
  refine rasterize_meshZ_point _ _ _ _ _ n _ _ ?_
  simp [resetZ, hn]

/-- C2, witness: for the two-group mesh the final depth value at slot 4
equals the value obtained by rasterizing only the last (empty) group
from a cleared buffer. -/
theorem C2_witness :
    (render_scene c2Cfg c2Shade c2Mesh frame0 zbuf0).2 4 =
      rasterize_meshZ 4 4 c2Shade c2Mesh.position [] (fun _ => f32MIN) 4 :=
  C2_depth_reset_per_group c2Cfg c2Shade c2Mesh frame0 zbuf0
    [⟨"g1", 0, none, [c2Tri]⟩] ⟨"g2", 0, none, []⟩ rfl (by decide) 4 (by decide)

/-- C5, counterexample: under genuine `f32` rounding the normalizer is
not idempotent.  For `c5Mesh` the first run sends vertex 1 to
`x = 8388609/8388608`, one ulp above `1` (third conjunct), so the
second run's already-normalized test fails and it rescales again,
changing the array (first conjunct); the claimed equality of one and
two applications is false at this input. -/
theorem C5_counterexample :
    normalize_vertices (normalize_vertices c5Mesh) ≠ normalize_vertices c5Mesh ∧
    ((normalize_vertices c5Mesh).getD 1 vec3Zero).x = 8388609/8388608 ∧
    (1 : ℚ) < 8388609/8388608 := by
  have h1 : normalize_vertices c5Mesh = c5Out1 := by with_unfolding_all rfl
  have h2 : normalize_vertices c5Out1 = c5Out2 := by with_unfolding_all rfl
  refine ⟨?_, ?_, by norm_num⟩
  · rw [h1, h2]
    with_unfolding_all decide
  · rw [h1]
    with_unfolding_all rfl

/-- C5, amended: the early-exit half of the claim stands — when the six
seeded extrema already lie within `[-1, 1]`, `normalize_vertices`
returns before touching anything and the position array is bit-for-bit
unchanged (this path only compares, so it is exact in `f32`).  The
idempotence half fails under `f32` rounding, per the counterexample:
a rescaled coordinate can land one ulp above `1` and re-trigger
normalization on the second run. -/
theorem C5_early_exit_unchanged (vs : List Vec3)
    (h : isValidValues (min_max_vertices vs) = true) :
    normalize_vertices vs = vs := by
  unfold normalize_vertices
  rw [if_pos h]

/-- C5, witness: a mesh whose extrema are already within `[-1, 1]` is
returned unchanged. -/
theorem C5_early_exit_witness :
    normalize_vertices [(⟨1/2, 0, -1⟩ : Vec3)] = [⟨1/2, 0, -1⟩] :=
  C5_early_exit_unchanged _ (by with_unfolding_all decide)
